import Mathlib

/-!
Verification of the Mandelbrot viewer core module (mandelbrot.ts).

Shallow embedding conventions:
* JavaScript numbers are modelled as exact rationals (ℚ); the claims under
  study are about the algebraic structure of the code, not float rounding.
* `Math.round x` in JavaScript rounds half toward positive infinity, which
  is exactly `⌊x + 1/2⌋`; it is embedded as `jsRound`.
* `Math.sin` and `Math.PI` are environment primitives; they are passed as
  explicit parameters `mathSin : ℚ → ℚ` and `mathPi : ℚ` to the functions
  that use them, so every definition stays computable.
* The `while` loop of `calculateMandelbrot` is embedded as structural
  recursion on the remaining fuel `maxIterations - iteration`.
* The `colorScheme` selector is a runtime string (the TypeScript `switch`
  compares strings), so it is embedded as `String` to cover the `default`
  branch for unknown values.
* The `ImageData` byte buffer filled by `renderMandelbrot` is embedded as a
  row-major `List ℤ`, four entries per pixel, in exactly the write order of
  the source's nested loops.
-/

/-- Viewport record: a rectangle in the complex plane. -/
structure Viewport where
  xMin : ℚ
  xMax : ℚ
  yMin : ℚ
  yMax : ℚ
deriving DecidableEq

/-- RenderOptions record: iteration limit and color scheme selector. -/
structure RenderOptions where
  maxIterations : ℤ
  colorScheme : String
deriving DecidableEq

/-- RGB color triple as returned by getColor. -/
structure Color where
  r : ℤ
  g : ℤ
  b : ℤ
deriving DecidableEq

/-- Complex point record as returned by pixelToComplex. -/
structure ComplexPoint where
  real : ℚ
  imaginary : ℚ
deriving DecidableEq

/-- Pixel point record as returned by complexToPixel. -/
structure PixelPoint where
  x : ℤ
  y : ℤ
deriving DecidableEq

/-- JavaScript Math.round: round half toward positive infinity. -/
def jsRound (q : ℚ) : ℤ := ⌊q + 1/2⌋

/-- The while loop of calculateMandelbrot, by recursion on the remaining
fuel `maxIterations - iteration`; returns the number of iterations
performed.  Loop body from the source: `xTemp = x*x - y*y + cx;
y = 2*x*y + cy; x = xTemp; iteration++`. -/
def mandelLoop (cx cy : ℚ) : ℚ → ℚ → ℕ → ℕ
  | x, y, fuel + 1 =>
      if x * x + y * y ≤ 4 then
        mandelLoop cx cy (x * x - y * y + cx) (2 * x * y + cy) fuel + 1
      else 0
  | _, _, 0 => 0

/-- calculateMandelbrot: iterate z ← z² + c from z = 0 until |z|² > 4 or
the iteration limit is reached; returns the iteration count.  A
non-positive `maxIterations` gives zero fuel, hence zero iterations. -/
def calculateMandelbrot (cx cy : ℚ) (maxIterations : ℤ) : ℤ :=
  (mandelLoop cx cy 0 0 maxIterations.toNat : ℤ)

/-- getColor: map an iteration count to an RGB triple.  `mathSin` and
`mathPi` model the JavaScript Math.sin and Math.PI primitives. -/
def getColor (mathSin : ℚ → ℚ) (mathPi : ℚ)
    (iteration maxIterations : ℤ) (scheme : String) : Color :=
  if iteration = maxIterations then
    ⟨0, 0, 0⟩
  else
    let t : ℚ := (iteration : ℚ) / (maxIterations : ℚ)
    if scheme = ("grayscale") then
      let gray : ℤ := ⌊255 * (1 - t)⌋
      ⟨gray, gray, gray⟩
    else if scheme = ("rainbow") then
      ⟨max 0 (min 255 ⌊255 * mathSin (mathPi * t * 3)⌋),
       max 0 (min 255 ⌊255 * mathSin (mathPi * t * 3 + 2 * mathPi / 3)⌋),
       max 0 (min 255 ⌊255 * mathSin (mathPi * t * 3 + 4 * mathPi / 3)⌋)⟩
    else if scheme = ("fire") then
      let ramp : ℚ := t * 4
      let rgb : ℤ × ℤ × ℤ :=
        if ramp ≤ 1 then (⌊255 * ramp⌋, 0, 0)
        else if ramp ≤ 2 then (255, ⌊255 * (ramp - 1)⌋, 0)
        else if ramp ≤ 3 then (255, 255, ⌊255 * (ramp - 2)⌋)
        else (255, 255, ⌊255 * min 1 (4 - ramp)⌋)
      ⟨max 0 (min 255 rgb.1), max 0 (min 255 rgb.2.1), max 0 (min 255 rgb.2.2)⟩
    else
      ⟨0, 0, 0⟩

/-- pixelToComplex: affine map from pixel coordinates to the complex
plane. -/
def pixelToComplex (pixelX pixelY width height : ℚ) (viewport : Viewport) :
    ComplexPoint :=
  let scaleX := (viewport.xMax - viewport.xMin) / width
  let scaleY := (viewport.yMax - viewport.yMin) / height
  ⟨viewport.xMin + pixelX * scaleX, viewport.yMin + pixelY * scaleY⟩

/-- complexToPixel: inverse affine map, each coordinate rounded to the
nearest integer pixel index with Math.round. -/
def complexToPixel (real imaginary width height : ℚ) (viewport : Viewport) :
    PixelPoint :=
  let scaleX := width / (viewport.xMax - viewport.xMin)
  let scaleY := height / (viewport.yMax - viewport.yMin)
  ⟨jsRound ((real - viewport.xMin) * scaleX),
   jsRound ((imaginary - viewport.yMin) * scaleY)⟩

/-- One pixel of the frame buffer: the four bytes R, G, B, 255 written by
the body of renderMandelbrot's inner loop. -/
def renderPixel (mathSin : ℚ → ℚ) (mathPi : ℚ) (width height : ℕ)
    (viewport : Viewport) (options : RenderOptions) (px py : ℕ) : List ℤ :=
  let c := pixelToComplex (px : ℚ) (py : ℚ) (width : ℚ) (height : ℚ) viewport
  let iteration := calculateMandelbrot c.real c.imaginary options.maxIterations
  let color := getColor mathSin mathPi iteration options.maxIterations
    options.colorScheme
  [color.r, color.g, color.b, 255]

/-- renderMandelbrot: the frame renderer.  The nested loops (py outer, px
inner) write four bytes per pixel at offset (py*width+px)*4, which is
exactly row-major concatenation of the per-pixel byte quadruples. -/
def renderMandelbrot (mathSin : ℚ → ℚ) (mathPi : ℚ) (width height : ℕ)
    (viewport : Viewport) (options : RenderOptions) : List ℤ :=
  (List.range height).flatMap fun py =>
    (List.range width).flatMap fun px =>
      renderPixel mathSin mathPi width height viewport options px py

/-- createZoomViewport: normalize the selection rectangle, map its two
corners to the complex plane, return their bounds as the new viewport. -/
def createZoomViewport (currentViewport : Viewport)
    (x1 y1 x2 y2 width height : ℚ) : Viewport :=
  let left := min x1 x2
  let right := max x1 x2
  let top := min y1 y2
  let bottom := max y1 y2
  let topLeft := pixelToComplex left top width height currentViewport
  let bottomRight := pixelToComplex right bottom width height currentViewport
  ⟨topLeft.real, bottomRight.real, topLeft.imaginary, bottomRight.imaginary⟩

/-- panViewport: convert the pixel delta to a complex-plane delta with the
per-pixel scale and subtract it from all four bounds. -/
def panViewport (currentViewport : Viewport) (dx dy width height : ℚ) :
    Viewport :=
  let deltaReal := dx * ((currentViewport.xMax - currentViewport.xMin) / width)
  let deltaImaginary :=
    dy * ((currentViewport.yMax - currentViewport.yMin) / height)
  ⟨currentViewport.xMin - deltaReal, currentViewport.xMax - deltaReal,
   currentViewport.yMin - deltaImaginary,
   currentViewport.yMax - deltaImaginary⟩

/-- zoomAtPoint: center the viewport on the complex image of the given
pixel and scale the extents by 1/zoomFactor. -/
def zoomAtPoint (currentViewport : Viewport)
    (centerX centerY zoomFactor width height : ℚ) : Viewport :=
  let center := pixelToComplex centerX centerY width height currentViewport
  let currentWidth := currentViewport.xMax - currentViewport.xMin
  let currentHeight := currentViewport.yMax - currentViewport.yMin
  let newWidth := currentWidth / zoomFactor
  let newHeight := currentHeight / zoomFactor
  ⟨center.real - newWidth / 2, center.real + newWidth / 2,
   center.imaginary - newHeight / 2, center.imaginary + newHeight / 2⟩

/-- getDefaultViewport: the fixed default view of the Mandelbrot set. -/
def getDefaultViewport : Viewport :=
  ⟨-5/2, 1, -3/2, 3/2⟩

/-- At the origin the iterate stays at (0,0), so the loop always runs out
of fuel. -/
lemma mandelLoop_origin (fuel : ℕ) : mandelLoop 0 0 0 0 fuel = fuel := by
  induction fuel with
  | zero => rfl
  | succ n ih =>
      simp only [mandelLoop]
      norm_num [ih]

/-- C1: for every integer maxIterations ≥ 1, calculateMandelbrot at the
origin (c = 0) returns exactly maxIterations: the iterate stays at (0,0),
never escapes, and the loop runs to the iteration limit. -/
theorem calculateMandelbrot_origin_eq_max (maxIterations : ℤ)
    (h : 1 ≤ maxIterations) :
    calculateMandelbrot 0 0 maxIterations = maxIterations := by
  unfold calculateMandelbrot
  rw [mandelLoop_origin]
  exact Int.toNat_of_nonneg (by linarith)

/-- Witness for C1 at maxIterations = 3. -/
theorem calculateMandelbrot_origin_eq_max_witness :
    (1 : ℤ) ≤ 3 ∧ calculateMandelbrot 0 0 3 = 3 :=
  ⟨by decide, calculateMandelbrot_origin_eq_max 3 (by decide)⟩

/-- C9: a non-positive iteration limit is tolerated: zero fuel, zero
iterations, result 0, for every point (cx, cy). -/
theorem calculateMandelbrot_nonpos_max (cx cy : ℚ) (maxIterations : ℤ)
    (h : maxIterations ≤ 0) :
    calculateMandelbrot cx cy maxIterations = 0 := by
  unfold calculateMandelbrot
  rw [Int.toNat_of_nonpos h]
  rfl

/-- Witness for C9 at (cx, cy) = (1, 2), maxIterations = -5. -/
theorem calculateMandelbrot_nonpos_max_witness :
    (-5 : ℤ) ≤ 0 ∧ calculateMandelbrot 1 2 (-5) = 0 :=
  ⟨by decide, calculateMandelbrot_nonpos_max 1 2 (-5) (by decide)⟩

/-- C6: when iteration equals maxIterations the point is treated as inside
the set and getColor returns black, for every scheme string (known or
unknown) and every Math.sin / Math.PI environment. -/
theorem getColor_max_is_black (mathSin : ℚ → ℚ) (mathPi : ℚ)
    (maxIterations : ℤ) (scheme : String) :
    getColor mathSin mathPi maxIterations maxIterations scheme = ⟨0, 0, 0⟩ := by
  simp [getColor]

/-- C7: every channel of getColor lies in [0, 255], for every scheme
(grayscale, rainbow, fire, or the unknown fallback), every maxIterations
≥ 1 and every iteration with 0 ≤ iteration ≤ maxIterations. -/
theorem getColor_channels_bounded (mathSin : ℚ → ℚ) (mathPi : ℚ)
    (iteration maxIterations : ℤ) (scheme : String)
    (hmx : 1 ≤ maxIterations) (h0 : 0 ≤ iteration)
    (h1 : iteration ≤ maxIterations) :
    0 ≤ (getColor mathSin mathPi iteration maxIterations scheme).r ∧
    (getColor mathSin mathPi iteration maxIterations scheme).r ≤ 255 ∧
    0 ≤ (getColor mathSin mathPi iteration maxIterations scheme).g ∧
    (getColor mathSin mathPi iteration maxIterations scheme).g ≤ 255 ∧
    0 ≤ (getColor mathSin mathPi iteration maxIterations scheme).b ∧
    (getColor mathSin mathPi iteration maxIterations scheme).b ≤ 255 := by
  by_cases hin : iteration = maxIterations
  · simp [getColor, hin]
  · have hlt : iteration < maxIterations := lt_of_le_of_ne h1 hin
    have hmxq : (0 : ℚ) < (maxIterations : ℚ) := by
      have : (0 : ℤ) < maxIterations := by linarith
      exact_mod_cast this
    have ht0 : (0 : ℚ) ≤ (iteration : ℚ) / (maxIterations : ℚ) :=
      div_nonneg (by exact_mod_cast h0) (le_of_lt hmxq)
    have ht1 : (iteration : ℚ) / (maxIterations : ℚ) < 1 :=
      (div_lt_one hmxq).mpr (by exact_mod_cast hlt)
    by_cases hg : scheme = ("grayscale")
    · have hlow :
          (0 : ℤ) ≤ ⌊255 * (1 - (iteration : ℚ) / (maxIterations : ℚ))⌋ := by
        apply Int.le_floor.mpr
        push_cast
        linarith
      have hhigh :
          ⌊255 * (1 - (iteration : ℚ) / (maxIterations : ℚ))⌋ ≤ 255 := by
        have h2 :
            ⌊255 * (1 - (iteration : ℚ) / (maxIterations : ℚ))⌋ ≤ ⌊(255 : ℚ)⌋ :=
          Int.floor_le_floor (by linarith)
        have h3 : ⌊(255 : ℚ)⌋ = (255 : ℤ) := by norm_num
        omega
      simp only [getColor, if_neg hin, if_pos hg]
      exact ⟨hlow, hhigh, hlow, hhigh, hlow, hhigh⟩
    · by_cases hr : scheme = ("rainbow")
      · simp only [getColor, if_neg hin, if_neg hg, if_pos hr]
        refine ⟨?_, ?_, ?_, ?_, ?_, ?_⟩ <;> simp
      · by_cases hf : scheme = ("fire")
        · simp only [getColor, if_neg hin, if_neg hg, if_neg hr, if_pos hf]
          split_ifs <;> refine ⟨?_, ?_, ?_, ?_, ?_, ?_⟩ <;> simp
        · simp [getColor, if_neg hin, hg, hr, hf]

/-- Witness for C7 at iteration = 1, maxIterations = 4, scheme fire. -/
theorem getColor_channels_bounded_witness :
    ((1 : ℤ) ≤ 4 ∧ (0 : ℤ) ≤ 1 ∧ (1 : ℤ) ≤ 4) ∧
    (0 ≤ (getColor (fun q => q) 3 1 4 ("fire")).r ∧
     (getColor (fun q => q) 3 1 4 ("fire")).r ≤ 255 ∧
     0 ≤ (getColor (fun q => q) 3 1 4 ("fire")).g ∧
     (getColor (fun q => q) 3 1 4 ("fire")).g ≤ 255 ∧
     0 ≤ (getColor (fun q => q) 3 1 4 ("fire")).b ∧
     (getColor (fun q => q) 3 1 4 ("fire")).b ≤ 255) :=
  ⟨⟨by decide, by decide, by decide⟩,
   getColor_channels_bounded (fun q => q) 3 1 4 ("fire")
     (by decide) (by decide) (by decide)⟩

/-- C10: panViewport subtracts the same delta from both bounds of each
axis, so the viewport extents are preserved exactly. -/
theorem panViewport_preserves_extents (vp : Viewport) (dx dy W H : ℚ)
    (hW : W ≠ 0) (hH : H ≠ 0) :
    (panViewport vp dx dy W H).xMax - (panViewport vp dx dy W H).xMin =
      vp.xMax - vp.xMin ∧
    (panViewport vp dx dy W H).yMax - (panViewport vp dx dy W H).yMin =
      vp.yMax - vp.yMin := by
  constructor <;> simp [panViewport]

/-- Witness for C10 on the default viewport, dx = 50, dy = -3, 800×600. -/
theorem panViewport_preserves_extents_witness :
    ((800 : ℚ) ≠ 0 ∧ (600 : ℚ) ≠ 0) ∧
    ((panViewport getDefaultViewport 50 (-3) 800 600).xMax -
        (panViewport getDefaultViewport 50 (-3) 800 600).xMin =
      getDefaultViewport.xMax - getDefaultViewport.xMin ∧
     (panViewport getDefaultViewport 50 (-3) 800 600).yMax -
        (panViewport getDefaultViewport 50 (-3) 800 600).yMin =
      getDefaultViewport.yMax - getDefaultViewport.yMin) :=
  ⟨⟨by norm_num, by norm_num⟩,
   panViewport_preserves_extents getDefaultViewport 50 (-3) 800 600
     (by norm_num) (by norm_num)⟩

/-- C4: for a viewport with xMin < xMax and positive width, panViewport
with positive dx strictly decreases xMin and xMax, negative dx strictly
increases them, and dx = 0 leaves them unchanged, whatever dy does. -/
theorem panViewport_dx_monotone (vp : Viewport) (dx dy W H : ℚ)
    (hvp : vp.xMin < vp.xMax) (hW : 0 < W) :
    (0 < dx → (panViewport vp dx dy W H).xMin < vp.xMin ∧
      (panViewport vp dx dy W H).xMax < vp.xMax) ∧
    (dx < 0 → vp.xMin < (panViewport vp dx dy W H).xMin ∧
      vp.xMax < (panViewport vp dx dy W H).xMax) ∧
    (dx = 0 → (panViewport vp dx dy W H).xMin = vp.xMin ∧
      (panViewport vp dx dy W H).xMax = vp.xMax) := by
  have hscale : 0 < (vp.xMax - vp.xMin) / W := div_pos (by linarith) hW
  refine ⟨fun hdx => ?_, fun hdx => ?_, fun hdx => ?_⟩
  · have hdelta : 0 < dx * ((vp.xMax - vp.xMin) / W) := mul_pos hdx hscale
    constructor <;> simp [panViewport] <;> linarith
  · have hdelta : dx * ((vp.xMax - vp.xMin) / W) < 0 :=
      mul_neg_of_neg_of_pos hdx hscale
    constructor <;> simp [panViewport] <;> linarith
  · subst hdx
    constructor <;> simp [panViewport]

/-- Witness for C4 on the default viewport, dx = 50, dy = 7, 800×600. -/
theorem panViewport_dx_monotone_witness :
    (getDefaultViewport.xMin < getDefaultViewport.xMax ∧ (0 : ℚ) < 800) ∧
    ((0 < (50 : ℚ) →
        (panViewport getDefaultViewport 50 7 800 600).xMin <
          getDefaultViewport.xMin ∧
        (panViewport getDefaultViewport 50 7 800 600).xMax <
          getDefaultViewport.xMax) ∧
     ((50 : ℚ) < 0 →
        getDefaultViewport.xMin <
          (panViewport getDefaultViewport 50 7 800 600).xMin ∧
        getDefaultViewport.xMax <
          (panViewport getDefaultViewport 50 7 800 600).xMax) ∧
     ((50 : ℚ) = 0 →
        (panViewport getDefaultViewport 50 7 800 600).xMin =
          getDefaultViewport.xMin ∧
        (panViewport getDefaultViewport 50 7 800 600).xMax =
          getDefaultViewport.xMax)) :=
  ⟨⟨by norm_num [getDefaultViewport], by norm_num⟩,
   panViewport_dx_monotone getDefaultViewport 50 7 800 600
     (by norm_num [getDefaultViewport]) (by norm_num)⟩

/-- C3: for a viewport with positive extents and positive canvas
dimensions, zoomAtPoint with factor 2 halves both extents, factor 1/2
doubles them, and in both cases the geometric center of the result is the
complex image of the pixel (centerX, centerY) under the original
viewport. -/
theorem zoomAtPoint_factor_spec (vp : Viewport) (centerX centerY W H : ℚ)
    (hx : 0 < vp.xMax - vp.xMin) (hy : 0 < vp.yMax - vp.yMin)
    (hW : 0 < W) (hH : 0 < H) :
    ((zoomAtPoint vp centerX centerY 2 W H).xMax -
        (zoomAtPoint vp centerX centerY 2 W H).xMin =
      (vp.xMax - vp.xMin) / 2 ∧
     (zoomAtPoint vp centerX centerY 2 W H).yMax -
        (zoomAtPoint vp centerX centerY 2 W H).yMin =
      (vp.yMax - vp.yMin) / 2) ∧
    ((zoomAtPoint vp centerX centerY (1/2) W H).xMax -
        (zoomAtPoint vp centerX centerY (1/2) W H).xMin =
      2 * (vp.xMax - vp.xMin) ∧
     (zoomAtPoint vp centerX centerY (1/2) W H).yMax -
        (zoomAtPoint vp centerX centerY (1/2) W H).yMin =
      2 * (vp.yMax - vp.yMin)) ∧
    (((zoomAtPoint vp centerX centerY 2 W H).xMin +
        (zoomAtPoint vp centerX centerY 2 W H).xMax) / 2 =
      (pixelToComplex centerX centerY W H vp).real ∧
     ((zoomAtPoint vp centerX centerY 2 W H).yMin +
        (zoomAtPoint vp centerX centerY 2 W H).yMax) / 2 =
      (pixelToComplex centerX centerY W H vp).imaginary ∧
     ((zoomAtPoint vp centerX centerY (1/2) W H).xMin +
        (zoomAtPoint vp centerX centerY (1/2) W H).xMax) / 2 =
      (pixelToComplex centerX centerY W H vp).real ∧
     ((zoomAtPoint vp centerX centerY (1/2) W H).yMin +
        (zoomAtPoint vp centerX centerY (1/2) W H).yMax) / 2 =
      (pixelToComplex centerX centerY W H vp).imaginary) := by
  refine ⟨⟨?_, ?_⟩, ⟨?_, ?_⟩, ?_, ?_, ?_, ?_⟩ <;>
    simp only [zoomAtPoint, pixelToComplex] <;> ring

/-- Witness for C3 on the default viewport, center pixel (400, 300),
canvas 800×600. -/
theorem zoomAtPoint_factor_spec_witness :
    ((0 : ℚ) < getDefaultViewport.xMax - getDefaultViewport.xMin ∧
     (0 : ℚ) < getDefaultViewport.yMax - getDefaultViewport.yMin ∧
     (0 : ℚ) < 800 ∧ (0 : ℚ) < 600) ∧
    ((zoomAtPoint getDefaultViewport 400 300 2 800 600).xMax -
        (zoomAtPoint getDefaultViewport 400 300 2 800 600).xMin =
      (getDefaultViewport.xMax - getDefaultViewport.xMin) / 2 ∧
     ((zoomAtPoint getDefaultViewport 400 300 (1/2) 800 600).xMin +
        (zoomAtPoint getDefaultViewport 400 300 (1/2) 800 600).xMax) / 2 =
      (pixelToComplex 400 300 800 600 getDefaultViewport).real) :=
  ⟨⟨by norm_num [getDefaultViewport], by norm_num [getDefaultViewport],
    by norm_num, by norm_num⟩,
   ⟨(zoomAtPoint_factor_spec getDefaultViewport 400 300 800 600
       (by norm_num [getDefaultViewport]) (by norm_num [getDefaultViewport])
       (by norm_num) (by norm_num)).1.1,
    (zoomAtPoint_factor_spec getDefaultViewport 400 300 800 600
       (by norm_num [getDefaultViewport]) (by norm_num [getDefaultViewport])
       (by norm_num) (by norm_num)).2.2.2.2.1⟩⟩

/-- Rounding an exact integer with Math.round returns it unchanged. -/
lemma jsRound_intCast (n : ℤ) : jsRound (n : ℚ) = n := by
  unfold jsRound
  rw [add_comm, Int.floor_add_int]
  norm_num

/-- C2: for a well-ordered viewport, positive canvas dimensions and any
integer interior pixel coordinate, complexToPixel inverts pixelToComplex
exactly (the rounding introduces no error because the recovered
coordinate is an exact integer). -/
theorem pixel_complex_roundtrip (vp : Viewport) (W H : ℚ) (x y : ℤ)
    (hx : vp.xMin < vp.xMax) (hy : vp.yMin < vp.yMax)
    (hW : 0 < W) (hH : 0 < H)
    (hx0 : 0 ≤ x) (hxW : (x : ℚ) < W) (hy0 : 0 ≤ y) (hyH : (y : ℚ) < H) :
    complexToPixel (pixelToComplex (x : ℚ) (y : ℚ) W H vp).real
      (pixelToComplex (x : ℚ) (y : ℚ) W H vp).imaginary W H vp = ⟨x, y⟩ := by
  have hxs : vp.xMax - vp.xMin ≠ 0 := by linarith
  have hys : vp.yMax - vp.yMin ≠ 0 := by linarith
  have hW0 : W ≠ 0 := ne_of_gt hW
  have hH0 : H ≠ 0 := ne_of_gt hH
  simp only [complexToPixel, pixelToComplex]
  have hxval :
      (vp.xMin + (x : ℚ) * ((vp.xMax - vp.xMin) / W) - vp.xMin) *
        (W / (vp.xMax - vp.xMin)) = (x : ℚ) := by
    field_simp
    ring
  have hyval :
      (vp.yMin + (y : ℚ) * ((vp.yMax - vp.yMin) / H) - vp.yMin) *
        (H / (vp.yMax - vp.yMin)) = (y : ℚ) := by
    field_simp
    ring
  rw [hxval, hyval, jsRound_intCast, jsRound_intCast]

/-- Witness for C2 on the default viewport, pixel (3, 2), canvas 8×6. -/
theorem pixel_complex_roundtrip_witness :
    (getDefaultViewport.xMin < getDefaultViewport.xMax ∧
     getDefaultViewport.yMin < getDefaultViewport.yMax ∧
     (0 : ℚ) < 8 ∧ (0 : ℚ) < 6 ∧
     (0 : ℤ) ≤ 3 ∧ ((3 : ℤ) : ℚ) < 8 ∧ (0 : ℤ) ≤ 2 ∧ ((2 : ℤ) : ℚ) < 6) ∧
    complexToPixel (pixelToComplex ((3 : ℤ) : ℚ) ((2 : ℤ) : ℚ) 8 6
        getDefaultViewport).real
      (pixelToComplex ((3 : ℤ) : ℚ) ((2 : ℤ) : ℚ) 8 6
        getDefaultViewport).imaginary 8 6 getDefaultViewport = ⟨3, 2⟩ :=
  ⟨⟨by norm_num [getDefaultViewport], by norm_num [getDefaultViewport],
    by norm_num, by norm_num, by norm_num, by norm_num, by norm_num,
    by norm_num⟩,
   pixel_complex_roundtrip getDefaultViewport 8 6 3 2
     (by norm_num [getDefaultViewport]) (by norm_num [getDefaultViewport])
     (by norm_num) (by norm_num) (by norm_num) (by norm_num) (by norm_num)
     (by norm_num)⟩

/-- C5 counterexample: with the two selection corners equal (a degenerate
selection), createZoomViewport returns a viewport with xMin = xMax, so the
result is not well-ordered; the claim quantifies over every pair of
corners and therefore fails on the code. -/
theorem createZoomViewport_claim_counterexample :
    ¬ ((createZoomViewport getDefaultViewport 0 0 0 0 100 100).xMin <
        (createZoomViewport getDefaultViewport 0 0 0 0 100 100).xMax) := by
  norm_num [createZoomViewport, pixelToComplex, getDefaultViewport]

/-- C5 amended: for a well-ordered viewport, positive canvas dimensions,
selection corners inside the canvas and a non-degenerate selection
(x1 ≠ x2 and y1 ≠ y2) — in either drag order — the createZoomViewport
result lies inside the input viewport bounds and is well-ordered. -/
theorem createZoomViewport_subset_wellOrdered (vp : Viewport)
    (x1 y1 x2 y2 W H : ℚ)
    (hvx : vp.xMin < vp.xMax) (hvy : vp.yMin < vp.yMax)
    (hW : 0 < W) (hH : 0 < H)
    (hx1 : 0 ≤ x1) (hx1W : x1 ≤ W) (hx2 : 0 ≤ x2) (hx2W : x2 ≤ W)
    (hy1 : 0 ≤ y1) (hy1H : y1 ≤ H) (hy2 : 0 ≤ y2) (hy2H : y2 ≤ H)
    (hxne : x1 ≠ x2) (hyne : y1 ≠ y2) :
    vp.xMin ≤ (createZoomViewport vp x1 y1 x2 y2 W H).xMin ∧
    (createZoomViewport vp x1 y1 x2 y2 W H).xMax ≤ vp.xMax ∧
    vp.yMin ≤ (createZoomViewport vp x1 y1 x2 y2 W H).yMin ∧
    (createZoomViewport vp x1 y1 x2 y2 W H).yMax ≤ vp.yMax ∧
    (createZoomViewport vp x1 y1 x2 y2 W H).xMin <
      (createZoomViewport vp x1 y1 x2 y2 W H).xMax ∧
    (createZoomViewport vp x1 y1 x2 y2 W H).yMin <
      (createZoomViewport vp x1 y1 x2 y2 W H).yMax := by
  have hsx : 0 < (vp.xMax - vp.xMin) / W := div_pos (by linarith) hW
  have hsy : 0 < (vp.yMax - vp.yMin) / H := div_pos (by linarith) hH
  have hminx : 0 ≤ min x1 x2 := le_min hx1 hx2
  have hminy : 0 ≤ min y1 y2 := le_min hy1 hy2
  have hmaxx : max x1 x2 ≤ W := max_le hx1W hx2W
  have hmaxy : max y1 y2 ≤ H := max_le hy1H hy2H
  have hWx : W * ((vp.xMax - vp.xMin) / W) = vp.xMax - vp.xMin := by
    field_simp
  have hHy : H * ((vp.yMax - vp.yMin) / H) = vp.yMax - vp.yMin := by
    field_simp
  simp only [createZoomViewport, pixelToComplex]
  refine ⟨?_, ?_, ?_, ?_, ?_, ?_⟩
  · nlinarith [mul_nonneg hminx hsx.le]
  · nlinarith [mul_le_mul_of_nonneg_right hmaxx hsx.le]
  · nlinarith [mul_nonneg hminy hsy.le]
  · nlinarith [mul_le_mul_of_nonneg_right hmaxy hsy.le]
  · nlinarith [mul_lt_mul_of_pos_right (min_lt_max.mpr hxne) hsx]
  · nlinarith [mul_lt_mul_of_pos_right (min_lt_max.mpr hyne) hsy]

/-- Witness for the amended C5 on the default viewport, corners (30, 40)
and (10, 20) given in reversed drag order, canvas 100×100. -/
theorem createZoomViewport_subset_wellOrdered_witness :
    (getDefaultViewport.xMin < getDefaultViewport.xMax ∧
     getDefaultViewport.yMin < getDefaultViewport.yMax ∧
     (0 : ℚ) < 100 ∧ (0 : ℚ) ≤ 30 ∧ (30 : ℚ) ≤ 100 ∧ (30 : ℚ) ≠ 10) ∧
    (getDefaultViewport.xMin ≤
       (createZoomViewport getDefaultViewport 30 40 10 20 100 100).xMin ∧
     (createZoomViewport getDefaultViewport 30 40 10 20 100 100).xMax ≤
       getDefaultViewport.xMax ∧
     getDefaultViewport.yMin ≤
       (createZoomViewport getDefaultViewport 30 40 10 20 100 100).yMin ∧
     (createZoomViewport getDefaultViewport 30 40 10 20 100 100).yMax ≤
       getDefaultViewport.yMax ∧
     (createZoomViewport getDefaultViewport 30 40 10 20 100 100).xMin <
       (createZoomViewport getDefaultViewport 30 40 10 20 100 100).xMax ∧
     (createZoomViewport getDefaultViewport 30 40 10 20 100 100).yMin <
       (createZoomViewport getDefaultViewport 30 40 10 20 100 100).yMax) :=
  ⟨⟨by norm_num [getDefaultViewport], by norm_num [getDefaultViewport],
    by norm_num, by norm_num, by norm_num, by norm_num⟩,
   createZoomViewport_subset_wellOrdered getDefaultViewport 30 40 10 20 100 100
     (by norm_num [getDefaultViewport]) (by norm_num [getDefaultViewport])
     (by norm_num) (by norm_num) (by norm_num) (by norm_num) (by norm_num)
     (by norm_num) (by norm_num) (by norm_num) (by norm_num) (by norm_num)
     (by norm_num) (by norm_num)⟩

/-- Length of a flatMap over an initial range of ℕ when every block has
the same length k. -/
lemma flatMapRange_length (f : ℕ → List ℤ) (k : ℕ)
    (hf : ∀ a, (f a).length = k) :
    ∀ n, ((List.range n).flatMap f).length = n * k := by
  intro n
  induction n with
  | zero => simp
  | succ m ih =>
      rw [List.range_succ, List.flatMap_append, List.length_append, ih]
      simp only [List.flatMap_cons, List.flatMap_nil, List.append_nil, hf]
      ring

/-- Indexing into a flatMap over an initial range of ℕ when every block
has the same length k: position i*k + j falls in block i at offset j. -/
lemma flatMapRange_getElem (f : ℕ → List ℤ) (k : ℕ)
    (hf : ∀ a, (f a).length = k) :
    ∀ n i j, i < n → j < k →
      ((List.range n).flatMap f)[i * k + j]? = (f i)[j]? := by
  intro n
  induction n with
  | zero => intro i j hi _; omega
  | succ m ih =>
      intro i j hi hj
      rw [List.range_succ, List.flatMap_append]
      rcases Nat.lt_succ_iff_lt_or_eq.mp hi with h | h
      · have hlen : ((List.range m).flatMap f).length = m * k :=
          flatMapRange_length f k hf m
        have h1 : i * k + j < i * k + k := Nat.add_lt_add_left hj _
        have h2 : i * k + k = (i + 1) * k := by ring
        have h3 : (i + 1) * k ≤ m * k := Nat.mul_le_mul_right k h
        rw [List.getElem?_append_left (by omega)]
        exact ih i j h hj
      · subst h
        have hlen : ((List.range i).flatMap f).length = i * k :=
          flatMapRange_length f k hf i
        rw [List.getElem?_append_right (by omega)]
        simp [hlen]

/-- Every pixel contributes exactly four bytes. -/
lemma renderPixel_length (mathSin : ℚ → ℚ) (mathPi : ℚ) (width height : ℕ)
    (viewport : Viewport) (options : RenderOptions) (px py : ℕ) :
    (renderPixel mathSin mathPi width height viewport options px py).length
      = 4 := rfl

/-- Byte ch of pixel (px, py) in the frame buffer is byte ch of that
pixel's quadruple. -/
lemma renderMandelbrot_getElem (mathSin : ℚ → ℚ) (mathPi : ℚ)
    (width height : ℕ) (viewport : Viewport) (options : RenderOptions)
    (px py ch : ℕ) (hpx : px < width) (hpy : py < height) (hch : ch < 4) :
    (renderMandelbrot mathSin mathPi width height viewport options)[
        (py * width + px) * 4 + ch]? =
      (renderPixel mathSin mathPi width height viewport options px py)[ch]? := by
  have hrow : ∀ py,
      ((List.range width).flatMap fun px =>
        renderPixel mathSin mathPi width height viewport options px py).length
      = width * 4 := fun py =>
    flatMapRange_length _ 4 (fun a => renderPixel_length _ _ _ _ _ _ a py) width
  have hidx : (py * width + px) * 4 + ch = py * (width * 4) + (px * 4 + ch) := by
    ring
  have hin : px * 4 + ch < width * 4 := by
    have h1 : px * 4 + ch < px * 4 + 4 := Nat.add_lt_add_left hch _
    have h2 : px * 4 + 4 = (px + 1) * 4 := by ring
    have h3 : (px + 1) * 4 ≤ width * 4 := Nat.mul_le_mul_right 4 hpx
    omega
  rw [renderMandelbrot, hidx,
    flatMapRange_getElem _ (width * 4) hrow height py (px * 4 + ch) hpy hin,
    flatMapRange_getElem _ 4
      (fun a => renderPixel_length mathSin mathPi width height viewport
        options a py) width px ch hpx hch]

/-- C8: the frame buffer has exactly width*height*4 bytes; for every pixel
(px, py) the byte at offset (py*width+px)*4 + 3 (alpha) is 255, and the
three bytes before it are the R, G, B channels of getColor applied to the
escape count of the complex image of (px, py). -/
theorem renderMandelbrot_buffer_spec (mathSin : ℚ → ℚ) (mathPi : ℚ)
    (width height : ℕ) (viewport : Viewport) (options : RenderOptions)
    (px py : ℕ) (hpx : px < width) (hpy : py < height) :
    (renderMandelbrot mathSin mathPi width height viewport options).length =
      width * height * 4 ∧
    (renderMandelbrot mathSin mathPi width height viewport options)[
        (py * width + px) * 4]? =
      some (getColor mathSin mathPi
        (calculateMandelbrot
          (pixelToComplex (px : ℚ) (py : ℚ) (width : ℚ) (height : ℚ)
            viewport).real
          (pixelToComplex (px : ℚ) (py : ℚ) (width : ℚ) (height : ℚ)
            viewport).imaginary
          options.maxIterations)
        options.maxIterations options.colorScheme).r ∧
    (renderMandelbrot mathSin mathPi width height viewport options)[
        (py * width + px) * 4 + 1]? =
      some (getColor mathSin mathPi
        (calculateMandelbrot
          (pixelToComplex (px : ℚ) (py : ℚ) (width : ℚ) (height : ℚ)
            viewport).real
          (pixelToComplex (px : ℚ) (py : ℚ) (width : ℚ) (height : ℚ)
            viewport).imaginary
          options.maxIterations)
        options.maxIterations options.colorScheme).g ∧
    (renderMandelbrot mathSin mathPi width height viewport options)[
        (py * width + px) * 4 + 2]? =
      some (getColor mathSin mathPi
        (calculateMandelbrot
          (pixelToComplex (px : ℚ) (py : ℚ) (width : ℚ) (height : ℚ)
            viewport).real
          (pixelToComplex (px : ℚ) (py : ℚ) (width : ℚ) (height : ℚ)
            viewport).imaginary
          options.maxIterations)
        options.maxIterations options.colorScheme).b ∧
    (renderMandelbrot mathSin mathPi width height viewport options)[
        (py * width + px) * 4 + 3]? = some 255 := by
  have hrow : ∀ py,
      ((List.range width).flatMap fun px =>
        renderPixel mathSin mathPi width height viewport options px py).length
      = width * 4 := fun py =>
    flatMapRange_length _ 4 (fun a => renderPixel_length _ _ _ _ _ _ a py) width
  have hlen :
      (renderMandelbrot mathSin mathPi width height viewport options).length =
        width * height * 4 := by
    rw [renderMandelbrot, flatMapRange_length _ (width * 4) hrow height]
    ring
  have h0 := renderMandelbrot_getElem mathSin mathPi width height viewport
    options px py 0 hpx hpy (by omega)
  have h1 := renderMandelbrot_getElem mathSin mathPi width height viewport
    options px py 1 hpx hpy (by omega)
  have h2 := renderMandelbrot_getElem mathSin mathPi width height viewport
    options px py 2 hpx hpy (by omega)
  have h3 := renderMandelbrot_getElem mathSin mathPi width height viewport
    options px py 3 hpx hpy (by omega)
  rw [Nat.add_zero] at h0
  exact ⟨hlen, h0, h1, h2, h3⟩

/-- Witness for C8: a 1×1 render of the default viewport with grayscale,
maxIterations = 2, at pixel (0, 0). -/
theorem renderMandelbrot_buffer_spec_witness :
    ((0 : ℕ) < 1 ∧ (0 : ℕ) < 1) ∧
    ((renderMandelbrot (fun q => q) 3 1 1 getDefaultViewport
        ⟨2, ("grayscale")⟩).length = 1 * 1 * 4 ∧
     (renderMandelbrot (fun q => q) 3 1 1 getDefaultViewport
        ⟨2, ("grayscale")⟩)[(0 * 1 + 0) * 4]? =
      some (getColor (fun q => q) 3
        (calculateMandelbrot
          (pixelToComplex ((0 : ℕ) : ℚ) ((0 : ℕ) : ℚ) ((1 : ℕ) : ℚ)
            ((1 : ℕ) : ℚ) getDefaultViewport).real
          (pixelToComplex ((0 : ℕ) : ℚ) ((0 : ℕ) : ℚ) ((1 : ℕ) : ℚ)
            ((1 : ℕ) : ℚ) getDefaultViewport).imaginary
          (RenderOptions.mk 2 ("grayscale")).maxIterations)
        (RenderOptions.mk 2 ("grayscale")).maxIterations
        (RenderOptions.mk 2 ("grayscale")).colorScheme).r ∧
     (renderMandelbrot (fun q => q) 3 1 1 getDefaultViewport
        ⟨2, ("grayscale")⟩)[(0 * 1 + 0) * 4 + 1]? =
      some (getColor (fun q => q) 3
        (calculateMandelbrot
          (pixelToComplex ((0 : ℕ) : ℚ) ((0 : ℕ) : ℚ) ((1 : ℕ) : ℚ)
            ((1 : ℕ) : ℚ) getDefaultViewport).real
          (pixelToComplex ((0 : ℕ) : ℚ) ((0 : ℕ) : ℚ) ((1 : ℕ) : ℚ)
            ((1 : ℕ) : ℚ) getDefaultViewport).imaginary
          (RenderOptions.mk 2 ("grayscale")).maxIterations)
        (RenderOptions.mk 2 ("grayscale")).maxIterations
        (RenderOptions.mk 2 ("grayscale")).colorScheme).g ∧
     (renderMandelbrot (fun q => q) 3 1 1 getDefaultViewport
        ⟨2, ("grayscale")⟩)[(0 * 1 + 0) * 4 + 2]? =
      some (getColor (fun q => q) 3
        (calculateMandelbrot
          (pixelToComplex ((0 : ℕ) : ℚ) ((0 : ℕ) : ℚ) ((1 : ℕ) : ℚ)
            ((1 : ℕ) : ℚ) getDefaultViewport).real
          (pixelToComplex ((0 : ℕ) : ℚ) ((0 : ℕ) : ℚ) ((1 : ℕ) : ℚ)
            ((1 : ℕ) : ℚ) getDefaultViewport).imaginary
          (RenderOptions.mk 2 ("grayscale")).maxIterations)
        (RenderOptions.mk 2 ("grayscale")).maxIterations
        (RenderOptions.mk 2 ("grayscale")).colorScheme).b ∧
     (renderMandelbrot (fun q => q) 3 1 1 getDefaultViewport
        ⟨2, ("grayscale")⟩)[(0 * 1 + 0) * 4 + 3]? = some 255) :=
  ⟨⟨by decide, by decide⟩,
   renderMandelbrot_buffer_spec (fun q => q) 3 1 1 getDefaultViewport
     ⟨2, ("grayscale")⟩ 0 0 (by decide) (by decide)⟩
